import Mathlib

/-!
Verification of the frame codec, tag-dispatch decoder and observation cache of
`ecowitt2mqtt.c` against its natural-language specification.

Modelling conventions (shallow embedding):
* C byte buffers (`unsigned char *`) become `List Nat`; reads use `List.getD`
  with default `0`, modelling the surrounding zero-initialised static buffer.
* `snprintf("%d", ...)` on a nonnegative value becomes `toString` on `Nat`;
  `"%.1f"` of `n / 10.0` and `"%.2f"` of `(2*b) / 100.0` are modelled as exact
  decimal printing of the rational value, which is what the C `printf` produces
  for these magnitudes (the double rounding error never crosses a decimal
  rounding boundary because the exact values have at most 1 resp. 2 decimals).
* Fallible C functions returning `-1` become `Option`-valued functions.
* `time_t` timestamps become `Int`.
-/

set_option maxRecDepth 4000

/-- The NUL character, used to model C string termination and zero-filled
`char` arrays. -/
def nulChar : Char := Char.ofNat 0

/-- Model of `snprintf(payload, _, "%.1f", n / 10.0)` for an integer `n`:
exact decimal printing with one fractional digit. -/
def fmt_tenths (n : Int) : String :=
  (if n < 0 then "-" else "") ++ toString (n.natAbs / 10) ++ "." ++ toString (n.natAbs % 10)

/-- Model of `snprintf(payload, _, "%.2f", b * 0.02)`: the exact value is
`2*b / 100`, printed with two fractional digits. -/
def fmt_hundredths (n : Nat) : String :=
  toString (n / 100) ++ "." ++ (if n % 100 < 10 then "0" else "") ++ toString (n % 100)

/-- Model of `snprintf("%d", tmpInt)` where `tmpInt` is a C `int` holding a
32-bit big-endian accumulation: values at or above `2^31` print as the wrapped
negative 32-bit integer. -/
def int32_string (v : Nat) : String :=
  if v < 2147483648 then toString v else toString ((v : Int) - 4294967296)

/-- The signed 16-bit offset rule of `process_tag`
(`TAG_TYPE_SHORT_DIVIDE_BY_10_SIGNED`): big-endian value, and
`tmpInt = tmpInt - 0xFFFF` when `buf[1] & 0x80` is set. -/
def short_signed_val (b1 b2 : Nat) : Int :=
  let v : Int := (b1 * 256 + b2 : Nat)
  if b1 &&& 128 ≠ 0 then v - 65535 else v

/-- The `short-scaled-signed` decoder of `process_tag`: signed-offset 16-bit
value divided by 10, printed with one decimal place. -/
def short_scaled_signed_string (b1 b2 : Nat) : String :=
  fmt_tenths (short_signed_val b1 b2)

/-- Battery byte decoding of `TAG_TYPE_3_BYTES_TEMP_AND_BATT`:
`"%.2f"` of `buf[3] * 0.02`. -/
def battery_string (b : Nat) : String :=
  fmt_hundredths (2 * b)

/-- Model of `strrchr(s, '/')` on the character list of a topic: the suffix
starting at the last `'/'` (slash included), or `none` when there is no slash
(in which case the C code would pass a NULL pointer to `strcat`). -/
def lastSlashSuffixChars : List Char → Option (List Char)
  | [] => none
  | c :: rest =>
    match lastSlashSuffixChars rest with
    | some s => some s
    | none => if c = '/' then some (c :: rest) else none

/-- String form of `lastSlashSuffixChars`; the `none` (no-slash) case never
occurs for the registry topics that use it. -/
def lastSlashSuffixStr (s : String) : String :=
  match lastSlashSuffixChars s.data with
  | some l => String.mk l
  | none => ""

/-- Model of `strncpy(dst, src, 32)` into the 32-byte `lastMessage` field:
copies characters of the source C string up to the first NUL, at most 32,
then pads the remainder of the 32-byte field with NUL. -/
def strncpy32 (s : List Char) : List Char :=
  let t := s.takeWhile (fun c => c ≠ nulChar)
  t.take 32 ++ List.replicate (32 - t.length) nulChar

/-- Reading a 32-byte `char` field as a C string (`%s`): the characters before
the first NUL. -/
def cString (arr : List Char) : List Char :=
  arr.takeWhile (fun c => c ≠ nulChar)

/-- The `TAG_PROCESSING_TYPE` enumeration of the source. -/
inductive TAG_PROCESSING_TYPE where
  | TAG_TYPE_BYTE_LEAVE_ALONE
  | TAG_TYPE_SHORT_LEAVE_ALONE
  | TAG_TYPE_3_BYTES_LEAVE_ALONE
  | TAG_TYPE_INT_LEAVE_ALONE
  | TAG_TYPE_SHORT_DIVIDE_BY_10_UNSIGNED
  | TAG_TYPE_SHORT_DIVIDE_BY_10_SIGNED
  | TAG_TYPE_3_BYTES_TEMP_AND_BATT
  | TAG_TYPE_3_BYTES_TIME
  | TAG_TYPE_6_BYTES_TIME
  | TAG_TYPE_16_BYTES_BITMASK
  | TAG_TYPE_16_BYTES_CO2
  | TAG_TYPE_20_BYTES_PIEZO_GAIN
  | TAG_TYPE_PM25_AQI
  deriving DecidableEq

open TAG_PROCESSING_TYPE

/-- Source function `tagTypeDataLength`: data byte width per variant. -/
def tagTypeDataLength : TAG_PROCESSING_TYPE → Nat
  | TAG_TYPE_BYTE_LEAVE_ALONE => 1
  | TAG_TYPE_SHORT_LEAVE_ALONE => 2
  | TAG_TYPE_SHORT_DIVIDE_BY_10_UNSIGNED => 2
  | TAG_TYPE_SHORT_DIVIDE_BY_10_SIGNED => 2
  | TAG_TYPE_3_BYTES_LEAVE_ALONE => 3
  | TAG_TYPE_3_BYTES_TEMP_AND_BATT => 3
  | TAG_TYPE_3_BYTES_TIME => 3
  | TAG_TYPE_INT_LEAVE_ALONE => 4
  | TAG_TYPE_6_BYTES_TIME => 6
  | TAG_TYPE_16_BYTES_BITMASK => 16
  | TAG_TYPE_16_BYTES_CO2 => 16
  | TAG_TYPE_20_BYTES_PIEZO_GAIN => 20
  | TAG_TYPE_PM25_AQI => 0

/-- The static part of a `TagSpec` entry (tag id, decode variant, topic).
The mutable `lastMessage`/`lastMessageTimestamp` fields live in the separate
observation cache (`Obs`). -/
structure TagSpec where
  tag : Nat
  type : TAG_PROCESSING_TYPE
  topic : String
  deriving DecidableEq

/-- Registry slice 1 of the source `tagData[]` table (split only to keep
elaboration fast; concatenated below in source order). -/
def tagData_1 : List TagSpec := [
  ⟨0x01, TAG_TYPE_SHORT_DIVIDE_BY_10_SIGNED, "temperature/indoors"⟩,
  ⟨0x02, TAG_TYPE_SHORT_DIVIDE_BY_10_SIGNED, "temperature/outdoors"⟩,
  ⟨0x03, TAG_TYPE_SHORT_DIVIDE_BY_10_SIGNED, "dew_point"⟩,
  ⟨0x04, TAG_TYPE_SHORT_DIVIDE_BY_10_SIGNED, "wind_chill"⟩,
  ⟨0x05, TAG_TYPE_SHORT_DIVIDE_BY_10_SIGNED, "heat_index"⟩,
  ⟨0x06, TAG_TYPE_BYTE_LEAVE_ALONE, "humidity/indoors"⟩,
  ⟨0x07, TAG_TYPE_BYTE_LEAVE_ALONE, "humidity/outdoors"⟩,
  ⟨0x08, TAG_TYPE_SHORT_DIVIDE_BY_10_UNSIGNED, "barometric/absolute"⟩,
  ⟨0x09, TAG_TYPE_SHORT_DIVIDE_BY_10_UNSIGNED, "barometric/relative"⟩,
  ⟨0x0A, TAG_TYPE_SHORT_LEAVE_ALONE, "wind/direction"⟩,
  ⟨0x0B, TAG_TYPE_SHORT_LEAVE_ALONE, "wind/speed"⟩,
  ⟨0x0C, TAG_TYPE_SHORT_LEAVE_ALONE, "wind/gust_speed"⟩,
  ⟨0x0D, TAG_TYPE_SHORT_LEAVE_ALONE, "rain/event"⟩,
  ⟨0x0E, TAG_TYPE_SHORT_LEAVE_ALONE, "rain/rate"⟩,
  ⟨0x0F, TAG_TYPE_SHORT_LEAVE_ALONE, "rain/hour"⟩,
  ⟨0x10, TAG_TYPE_SHORT_LEAVE_ALONE, "rain/day"⟩,
  ⟨0x11, TAG_TYPE_SHORT_LEAVE_ALONE, "rain/week"⟩,
  ⟨0x12, TAG_TYPE_SHORT_LEAVE_ALONE, "rain/month"⟩,
  ⟨0x13, TAG_TYPE_SHORT_LEAVE_ALONE, "rain/year"⟩,
  ⟨0x14, TAG_TYPE_SHORT_LEAVE_ALONE, "rain/totals"⟩]

/-- Registry slice 2 of the source `tagData[]` table (split only to keep
elaboration fast; concatenated below in source order). -/
def tagData_2 : List TagSpec := [
  ⟨0x15, TAG_TYPE_INT_LEAVE_ALONE, "light"⟩,
  ⟨0x16, TAG_TYPE_SHORT_LEAVE_ALONE, "uv/intensity"⟩,
  ⟨0x17, TAG_TYPE_BYTE_LEAVE_ALONE, "uv/index"⟩,
  ⟨0x18, TAG_TYPE_6_BYTES_TIME, "date_and_time"⟩,
  ⟨0x19, TAG_TYPE_SHORT_LEAVE_ALONE, "wind/day_max"⟩,
  ⟨0x1A, TAG_TYPE_SHORT_DIVIDE_BY_10_SIGNED, "temperature/th_1"⟩,
  ⟨0x1B, TAG_TYPE_SHORT_DIVIDE_BY_10_SIGNED, "temperature/th_2"⟩,
  ⟨0x1C, TAG_TYPE_SHORT_DIVIDE_BY_10_SIGNED, "temperature/th_3"⟩,
  ⟨0x1D, TAG_TYPE_SHORT_DIVIDE_BY_10_SIGNED, "temperature/th_4"⟩,
  ⟨0x1E, TAG_TYPE_SHORT_DIVIDE_BY_10_SIGNED, "temperature/th_5"⟩,
  ⟨0x1F, TAG_TYPE_SHORT_DIVIDE_BY_10_SIGNED, "temperature/th_6"⟩,
  ⟨0x20, TAG_TYPE_SHORT_DIVIDE_BY_10_SIGNED, "temperature/th_7"⟩,
  ⟨0x21, TAG_TYPE_SHORT_DIVIDE_BY_10_SIGNED, "temperature/th_8"⟩,
  ⟨0x22, TAG_TYPE_BYTE_LEAVE_ALONE, "humidity/th_1"⟩,
  ⟨0x23, TAG_TYPE_BYTE_LEAVE_ALONE, "humidity/th_2"⟩,
  ⟨0x24, TAG_TYPE_BYTE_LEAVE_ALONE, "humidity/th_3"⟩,
  ⟨0x25, TAG_TYPE_BYTE_LEAVE_ALONE, "humidity/th_4"⟩,
  ⟨0x26, TAG_TYPE_BYTE_LEAVE_ALONE, "humidity/th_5"⟩,
  ⟨0x27, TAG_TYPE_BYTE_LEAVE_ALONE, "humidity/th_6"⟩,
  ⟨0x28, TAG_TYPE_BYTE_LEAVE_ALONE, "humidity/th_7"⟩]

/-- Registry slice 3 of the source `tagData[]` table (split only to keep
elaboration fast; concatenated below in source order). -/
def tagData_3 : List TagSpec := [
  ⟨0x29, TAG_TYPE_BYTE_LEAVE_ALONE, "humidity/th_8"⟩,
  ⟨0x2A, TAG_TYPE_SHORT_LEAVE_ALONE, "air_quality"⟩,
  ⟨0x2B, TAG_TYPE_SHORT_DIVIDE_BY_10_SIGNED, "temperature/soil_1"⟩,
  ⟨0x2C, TAG_TYPE_BYTE_LEAVE_ALONE, "moisture/soil_1"⟩,
  ⟨0x2D, TAG_TYPE_SHORT_DIVIDE_BY_10_SIGNED, "temperature/soil_2"⟩,
  ⟨0x2E, TAG_TYPE_BYTE_LEAVE_ALONE, "moisture/soil_2"⟩,
  ⟨0x2F, TAG_TYPE_SHORT_DIVIDE_BY_10_SIGNED, "temperature/soil_3"⟩,
  ⟨0x30, TAG_TYPE_BYTE_LEAVE_ALONE, "moisture/soil_3"⟩,
  ⟨0x31, TAG_TYPE_SHORT_DIVIDE_BY_10_SIGNED, "temperature/soil_4"⟩,
  ⟨0x32, TAG_TYPE_BYTE_LEAVE_ALONE, "moisture/soil_4"⟩,
  ⟨0x33, TAG_TYPE_SHORT_DIVIDE_BY_10_SIGNED, "temperature/soil_5"⟩,
  ⟨0x34, TAG_TYPE_BYTE_LEAVE_ALONE, "moisture/soil_5"⟩,
  ⟨0x35, TAG_TYPE_SHORT_DIVIDE_BY_10_SIGNED, "temperature/soil_6"⟩,
  ⟨0x36, TAG_TYPE_BYTE_LEAVE_ALONE, "moisture/soil_6"⟩,
  ⟨0x37, TAG_TYPE_SHORT_DIVIDE_BY_10_SIGNED, "temperature/soil_7"⟩,
  ⟨0x38, TAG_TYPE_BYTE_LEAVE_ALONE, "moisture/soil_7"⟩,
  ⟨0x39, TAG_TYPE_SHORT_DIVIDE_BY_10_SIGNED, "temperature/soil_8"⟩,
  ⟨0x3A, TAG_TYPE_BYTE_LEAVE_ALONE, "moisture/soil_8"⟩,
  ⟨0x3B, TAG_TYPE_SHORT_DIVIDE_BY_10_SIGNED, "temperature/soil_9"⟩,
  ⟨0x3C, TAG_TYPE_BYTE_LEAVE_ALONE, "moisture/soil_9"⟩]

/-- Registry slice 4 of the source `tagData[]` table (split only to keep
elaboration fast; concatenated below in source order). -/
def tagData_4 : List TagSpec := [
  ⟨0x3D, TAG_TYPE_SHORT_DIVIDE_BY_10_SIGNED, "temperature/soil_10"⟩,
  ⟨0x3E, TAG_TYPE_BYTE_LEAVE_ALONE, "moisture/soil_10"⟩,
  ⟨0x3F, TAG_TYPE_SHORT_DIVIDE_BY_10_SIGNED, "temperature/soil_11"⟩,
  ⟨0x40, TAG_TYPE_BYTE_LEAVE_ALONE, "moisture/soil_11"⟩,
  ⟨0x41, TAG_TYPE_SHORT_DIVIDE_BY_10_SIGNED, "temperature/soil_12"⟩,
  ⟨0x42, TAG_TYPE_BYTE_LEAVE_ALONE, "moisture/soil_12"⟩,
  ⟨0x43, TAG_TYPE_SHORT_DIVIDE_BY_10_SIGNED, "temperature/soil_13"⟩,
  ⟨0x44, TAG_TYPE_BYTE_LEAVE_ALONE, "moisture/soil_13"⟩,
  ⟨0x45, TAG_TYPE_SHORT_DIVIDE_BY_10_SIGNED, "temperature/soil_14"⟩,
  ⟨0x46, TAG_TYPE_BYTE_LEAVE_ALONE, "moisture/soil_14"⟩,
  ⟨0x47, TAG_TYPE_SHORT_DIVIDE_BY_10_SIGNED, "temperature/soil_15"⟩,
  ⟨0x48, TAG_TYPE_BYTE_LEAVE_ALONE, "moisture/soil_15"⟩,
  ⟨0x49, TAG_TYPE_SHORT_DIVIDE_BY_10_SIGNED, "temperature/soil_16"⟩,
  ⟨0x4A, TAG_TYPE_BYTE_LEAVE_ALONE, "moisture/soil_16"⟩,
  ⟨0x4C, TAG_TYPE_16_BYTES_BITMASK, "all_sensor_low_battery"⟩,
  ⟨0x4D, TAG_TYPE_SHORT_LEAVE_ALONE, "pm25/ch1"⟩,
  ⟨0x4E, TAG_TYPE_SHORT_LEAVE_ALONE, "pm25/ch2"⟩,
  ⟨0x4F, TAG_TYPE_SHORT_LEAVE_ALONE, "pm25/ch3"⟩,
  ⟨0x50, TAG_TYPE_SHORT_LEAVE_ALONE, "pm25/ch4"⟩,
  ⟨0x51, TAG_TYPE_SHORT_LEAVE_ALONE, "aqs/2"⟩]

/-- Registry slice 5 of the source `tagData[]` table (split only to keep
elaboration fast; concatenated below in source order). -/
def tagData_5 : List TagSpec := [
  ⟨0x52, TAG_TYPE_SHORT_LEAVE_ALONE, "aqs/3"⟩,
  ⟨0x53, TAG_TYPE_SHORT_LEAVE_ALONE, "aqs/4"⟩,
  ⟨0x58, TAG_TYPE_BYTE_LEAVE_ALONE, "leak/1"⟩,
  ⟨0x59, TAG_TYPE_BYTE_LEAVE_ALONE, "leak/2"⟩,
  ⟨0x5A, TAG_TYPE_BYTE_LEAVE_ALONE, "leak/3"⟩,
  ⟨0x5B, TAG_TYPE_BYTE_LEAVE_ALONE, "leak/4"⟩,
  ⟨0x60, TAG_TYPE_BYTE_LEAVE_ALONE, "lightning/distance"⟩,
  ⟨0x61, TAG_TYPE_INT_LEAVE_ALONE, "lightning/time"⟩,
  ⟨0x62, TAG_TYPE_INT_LEAVE_ALONE, "lightning/day_counter"⟩,
  ⟨0x63, TAG_TYPE_3_BYTES_TEMP_AND_BATT, "temperature/t1"⟩,
  ⟨0x64, TAG_TYPE_3_BYTES_TEMP_AND_BATT, "temperature/t2"⟩,
  ⟨0x65, TAG_TYPE_3_BYTES_TEMP_AND_BATT, "temperature/t3"⟩,
  ⟨0x66, TAG_TYPE_3_BYTES_TEMP_AND_BATT, "temperature/t4"⟩,
  ⟨0x67, TAG_TYPE_3_BYTES_TEMP_AND_BATT, "temperature/t5"⟩,
  ⟨0x68, TAG_TYPE_3_BYTES_TEMP_AND_BATT, "temperature/t6"⟩,
  ⟨0x69, TAG_TYPE_3_BYTES_TEMP_AND_BATT, "temperature/t7"⟩,
  ⟨0x6A, TAG_TYPE_3_BYTES_TEMP_AND_BATT, "temperature/t8"⟩,
  ⟨0x70, TAG_TYPE_16_BYTES_CO2, "co2"⟩,
  ⟨0x71, TAG_TYPE_PM25_AQI, "aqi"⟩,
  ⟨0x72, TAG_TYPE_BYTE_LEAVE_ALONE, "leaf_wetness/1"⟩]

/-- Registry slice 6 of the source `tagData[]` table (split only to keep
elaboration fast; concatenated below in source order). -/
def tagData_6 : List TagSpec := [
  ⟨0x73, TAG_TYPE_BYTE_LEAVE_ALONE, "leaf_wetness/2"⟩,
  ⟨0x74, TAG_TYPE_BYTE_LEAVE_ALONE, "leaf_wetness/3"⟩,
  ⟨0x75, TAG_TYPE_BYTE_LEAVE_ALONE, "leaf_wetness/4"⟩,
  ⟨0x76, TAG_TYPE_BYTE_LEAVE_ALONE, "leaf_wetness/5"⟩,
  ⟨0x77, TAG_TYPE_BYTE_LEAVE_ALONE, "leaf_wetness/6"⟩,
  ⟨0x78, TAG_TYPE_BYTE_LEAVE_ALONE, "leaf_wetness/7"⟩,
  ⟨0x79, TAG_TYPE_BYTE_LEAVE_ALONE, "leaf_wetness/8"⟩,
  ⟨0x80, TAG_TYPE_SHORT_LEAVE_ALONE, "rain/piezo/rate"⟩,
  ⟨0x81, TAG_TYPE_SHORT_LEAVE_ALONE, "rain/piezo/event"⟩,
  ⟨0x82, TAG_TYPE_SHORT_LEAVE_ALONE, "rain/piezo/hourly"⟩,
  ⟨0x83, TAG_TYPE_INT_LEAVE_ALONE, "rain/piezo/daily"⟩,
  ⟨0x84, TAG_TYPE_INT_LEAVE_ALONE, "rain/piezo/weekly"⟩,
  ⟨0x85, TAG_TYPE_INT_LEAVE_ALONE, "rain/piezo/monthly"⟩,
  ⟨0x86, TAG_TYPE_INT_LEAVE_ALONE, "rain/piezo/yearly"⟩,
  ⟨0x87, TAG_TYPE_20_BYTES_PIEZO_GAIN, "rain/piezo/gain"⟩,
  ⟨0x88, TAG_TYPE_3_BYTES_TIME, "rain/rst/time"⟩]

/-- The `tagData[]` registry of the source, in source order.  Tag ids are the
`ITEM_*` constants of `ecowitt.h`. -/
def tagData : List TagSpec :=
  tagData_1 ++ tagData_2 ++ tagData_3 ++ tagData_4 ++ tagData_5 ++ tagData_6

/-- A default `TagSpec`, only used as the `getD` fallback (never reached for
in-range indices). -/
def dummyTagSpec : TagSpec := ⟨0, TAG_TYPE_BYTE_LEAVE_ALONE, ""⟩

/-- Source function `tag_count()`. -/
def tag_count : Nat := tagData.length

/-- Source function `tag_index`: scans the registry from the last entry down
and returns the index of the first entry whose tag matches, `none`
(C: `-1`) otherwise. -/
def tag_index (t : Nat) : Option Nat :=
  (List.range tag_count).reverse.find? (fun i => (tagData.getD i dummyTagSpec).tag == t)

/-- Sum of `n` buffer bytes starting at offset `s` (the C
`for (i = s; i < s + n; i++) checksum += buf[i];` pattern). -/
def sumBytes (b : List Nat) (s n : Nat) : Nat :=
  match n with
  | 0 => 0
  | m + 1 => b.getD s 0 + sumBytes b (s + 1) m

/-- Constant `RECEIVE_BUFFER_OK`. -/
def RECEIVE_BUFFER_OK : Int := 0
/-- Constant `INVALID_HEADER`. -/
def INVALID_HEADER : Int := -1
/-- Constant `INVALID_CHECKSUM`. -/
def INVALID_CHECKSUM : Int := -2

/-- Source function `check_receive_buffer`: requires a `0xFF 0xFF` header,
reads a 16-bit big-endian length from bytes 3 and 4, sums bytes at offsets
`2..=length` and compares the sum mod 256 with the byte at `length + 1`. -/
def check_receive_buffer (b : List Nat) : Int :=
  if b.getD 0 0 ≠ 0xFF ∨ b.getD 1 0 ≠ 0xFF then INVALID_HEADER
  else
    let length := (b.getD 3 0) * 256 + b.getD 4 0
    let checksum := sumBytes b 2 (length - 1) % 256
    if checksum ≠ b.getD (length + 1) 0 then INVALID_CHECKSUM
    else RECEIVE_BUFFER_OK

/-- Source function `prepare_command_buffer`.  The payload pointer is modelled
as `Option (List Nat)` (`none` = NULL); the separate `length` argument mirrors
the C parameter.  Returns the written buffer on success, `none` on the
`return -1` paths.  Note the second guard is the source's
`(length > 0) && (payload != NULL)` — as written, not as its error message
suggests it was meant. -/
def prepare_command_buffer (cmd : Nat) (payload : Option (List Nat)) (length : Nat) :
    Option (List Nat) :=
  if length ≥ 0xFF - 3 then none
  else if length > 0 ∧ payload ≠ none then none
  else
    let pbytes := (List.range length).map (fun k => (payload.getD []).getD k 0 % 256)
    let head := [0xFF, 0xFF, cmd, 3 + length] ++ pbytes
    let checksum := sumBytes head 2 (length + 2) % 256
    some (head ++ [checksum])

/-- An observation cache entry: the mutable `lastMessage[MQTT_MESSAGE_MAXLEN]`
and `lastMessageTimestamp` fields of a `TagSpec` in the source, kept in a
separate parallel list so the embedding is purely functional. -/
structure Obs where
  lastMessage : List Char
  lastMessageTimestamp : Int
  deriving DecidableEq

/-- The zero-initialised observation (global C arrays start zeroed). -/
def emptyObs : Obs := ⟨List.replicate 32 nulChar, 0⟩

/-- The observation cache at process start: one empty entry per registry
entry. -/
def initialCache : List Obs := List.replicate tagData.length emptyObs

/-- The `switch (tagType)` body of `process_tag`: from the buffer positioned
at the tag byte (`buf.getD 0` is the tag), produce the extra publications
made inside the switch (only the battery message of
`TAG_TYPE_3_BYTES_TEMP_AND_BATT`) and the main `payload` C string ( `""`
models `payload[0] == 0`).  `TAG_TYPE_PM25_AQI` is handled by the caller
(`process_tag`), which returns `-1` before publishing anything. -/
def tag_payload (ty : TAG_PROCESSING_TYPE) (topic : String) (buf : List Nat) :
    List (String × String) × String :=
  match ty with
  | TAG_TYPE_BYTE_LEAVE_ALONE =>
    ([], toString (buf.getD 1 0))
  | TAG_TYPE_SHORT_LEAVE_ALONE =>
    ([], toString (buf.getD 1 0 * 256 + buf.getD 2 0))
  | TAG_TYPE_3_BYTES_LEAVE_ALONE =>
    ([], toString ((buf.getD 1 0 * 256 + buf.getD 2 0) * 256 + buf.getD 3 0))
  | TAG_TYPE_INT_LEAVE_ALONE =>
    ([], int32_string (((buf.getD 1 0 * 256 + buf.getD 2 0) * 256 + buf.getD 3 0) * 256
      + buf.getD 4 0))
  | TAG_TYPE_SHORT_DIVIDE_BY_10_UNSIGNED =>
    ([], fmt_tenths ((buf.getD 1 0 * 256 + buf.getD 2 0 : Nat) : Int))
  | TAG_TYPE_SHORT_DIVIDE_BY_10_SIGNED =>
    ([], short_scaled_signed_string (buf.getD 1 0) (buf.getD 2 0))
  | TAG_TYPE_3_BYTES_TEMP_AND_BATT =>
    ([("battery" ++ lastSlashSuffixStr topic, battery_string (buf.getD 3 0))],
      short_scaled_signed_string (buf.getD 1 0) (buf.getD 2 0))
  | TAG_TYPE_3_BYTES_TIME => ([], "")
  | TAG_TYPE_6_BYTES_TIME => ([], "")
  | TAG_TYPE_16_BYTES_BITMASK =>
    ([], String.mk ((List.range 128).map (fun p =>
      if buf.getD (1 + p / 8) 0 &&& (1 <<< (7 - p % 8)) ≠ 0 then '1' else '0')))
  | TAG_TYPE_16_BYTES_CO2 => ([], "")
  | TAG_TYPE_20_BYTES_PIEZO_GAIN => ([], "")
  | TAG_TYPE_PM25_AQI => ([], "")

/-- Source function `process_tag`, as a pure function.  Input: the buffer from
the cursor on (`buf.getD 0` is the tag byte), the current time and the
observation cache.  Output: the C return value (`1 + length` to advance,
`-1` to stop), the list of `(topic suffix, payload)` pairs handed to
`mqtt_publish` in order, and the updated cache. -/
def process_tag (buf : List Nat) (now : Int) (cache : List Obs) :
    Int × List (String × String) × List Obs :=
  match tag_index (buf.getD 0 0) with
  | none => (-1, [], cache)
  | some ti =>
    let spec := tagData.getD ti dummyTagSpec
    if spec.type = TAG_TYPE_PM25_AQI then (-1, [], cache)
    else
      let r := tag_payload spec.type spec.topic buf
      if r.2 ≠ "" then
        (1 + (tagTypeDataLength spec.type : Int), r.1 ++ [(spec.topic, r.2)],
          cache.set ti ⟨strncpy32 r.2.data, now⟩)
      else
        (1 + (tagTypeDataLength spec.type : Int), r.1, cache)

/-- The `while (readBytes < length)` loop of `parse_and_publish`.  `pos` is
the cursor as an absolute index into the frame (the C `buf` pointer);
`fuel` bounds the iteration count (the top-level entry point passes the
declared length, which the termination theorem shows is more than enough).
Returns the accumulated publications, the final cache and the final
`readBytes`. -/
def parse_loop : Nat → List Nat → Nat → Nat → Nat → Int → List Obs →
    List (String × String) × List Obs × Nat
  | 0, _, _, readBytes, _, _, cache => ([], cache, readBytes)
  | fuel + 1, frame, pos, readBytes, length, now, cache =>
    if length ≤ readBytes then ([], cache, readBytes)
    else
      let r := process_tag (frame.drop pos) now cache
      if 0 < r.1 then
        let next := parse_loop fuel frame (pos + r.1.toNat) (readBytes + r.1.toNat)
          length now r.2.2
        (r.2.1 ++ next.1, next.2.1, next.2.2)
      else ([], r.2.2, readBytes)

/-- The result of `parse_and_publish`: publications, final observation cache,
the raw-data side buffer (`data_buffer` / `data_buffer_len` /
`data_buffer_last_update`), and the final `readBytes` of the loop. -/
structure ParseResult where
  pubs : List (String × String)
  cache : List Obs
  dataBuffer : List Nat
  dataBufferLen : Nat
  dataBufferLastUpdate : Int
  finalReadBytes : Nat
  deriving DecidableEq

/-- Source function `parse_and_publish`: skips the 2-byte header and the
command byte, reads the 16-bit big-endian length from frame offsets 3–4,
copies `length` bytes from offset 5 into `data_buffer`, then walks the tag
stream with `process_tag`, starting at offset 5 with `readBytes = 3`. -/
def parse_and_publish (frame : List Nat) (now : Int) (cache : List Obs) : ParseResult :=
  let length := (frame.getD 3 0) * 256 + frame.getD 4 0
  let r := parse_loop length frame 5 3 length now cache
  ⟨r.1, r.2.1, (List.range length).map (fun k => frame.getD (5 + k) 0), length, now, r.2.2⟩

/-- A tag chunk of the stream: one tag byte followed by its data bytes. -/
structure Chunk where
  tag : Nat
  data : List Nat
  deriving DecidableEq

/-- The wire bytes of a chunk. -/
def chunkBytes (c : Chunk) : List Nat := c.tag :: c.data

/-- A chunk is well formed when its tag is in the registry, its variant is a
fixed-width one (not `TAG_TYPE_PM25_AQI`), and its data has exactly the
variant's width. -/
def chunk_ok (c : Chunk) : Bool :=
  match tag_index c.tag with
  | none => false
  | some ti =>
    let spec := tagData.getD ti dummyTagSpec
    spec.type ≠ TAG_TYPE_PM25_AQI && c.data.length == tagTypeDataLength spec.type

/-- Concatenated wire bytes of a chunk list. -/
def chunksFlat (cs : List Chunk) : List Nat := cs.flatMap chunkBytes

/-- Processing a list of chunks one at a time, each in isolation: the
publications concatenate and the cache threads through. -/
def run_chunks (now : Int) : List Chunk → List Obs → List (String × String) × List Obs
  | [], cache => ([], cache)
  | c :: cs, cache =>
    let r := process_tag (chunkBytes c) now cache
    let rest := run_chunks now cs r.2.2
    (r.2.1 ++ rest.1, rest.2)

/-- Constant `MESSAGE_EXPIRATION_SECONDS`. -/
def MESSAGE_EXPIRATION_SECONDS : Int := 60

/-- The inclusion test of the `publish_json` loop:
`tagData[ti].lastMessage[0] && ((now - tagData[ti].lastMessageTimestamp) <= MESSAGE_EXPIRATION_SECONDS)`. -/
def include_entry (now : Int) (o : Obs) : Bool :=
  o.lastMessage.getD 0 nulChar ≠ nulChar
    && now - o.lastMessageTimestamp ≤ MESSAGE_EXPIRATION_SECONDS

/-- The registry indices `publish_json` includes, in its loop order
(`ti` from `tag_count() - 1` down to `0`). -/
def publish_json_idx (now : Int) (cache : List Obs) : List Nat :=
  (List.range tag_count).reverse.filter (fun ti => include_entry now (cache.getD ti emptyObs))

/-- Source function `publish_json`, as a pure function of the cache and the
current time: `none` models the "No recent data to publish" branch (nothing
published); `some s` is the JSON text published to `all_data/json`. -/
def publish_json (now : Int) (cache : List Obs) : Option String :=
  let items := (publish_json_idx now cache).map (fun ti =>
    "\"" ++ (tagData.getD ti dummyTagSpec).topic ++ "\": \""
      ++ String.mk (cString (cache.getD ti emptyObs).lastMessage) ++ "\"")
  if items.isEmpty then none
  else some ("\x7b\n" ++ String.intercalate ",\n" items ++ "\n\x7d")

/-- Spec-side restatement of the `short-scaled-signed` rule, following the
claim's words: read the 16-bit big-endian value, subtract `0xFFFF` when the
high bit of the first byte is set, divide by 10, print one decimal place. -/
def shortScaledSignedSpec (b1 b2 : Nat) : String :=
  fmt_tenths (if 128 ≤ b1 then ((b1 * 256 + b2 : Nat) : Int) - 0xFFFF
    else ((b1 * 256 + b2 : Nat) : Int))

/-- Spec-side final path segment of a channel name: the part after the last
`'/'` (the whole name when there is no slash). -/
def lastSegment (s : String) : String :=
  match lastSlashSuffixChars s.data with
  | some l => String.mk l.tail
  | none => s

/-- For bytes below 256, the C test `buf[1] & 0x80` is the high-bit test. -/
theorem and128_iff : ∀ b1 < 256, (b1 &&& 128 ≠ 0 ↔ 128 ≤ b1) := by decide

/-- Claim C5: the short-scaled-signed decoder maps `0x00 0x0A` to `"1.0"` and
`0xFF 0xF6` to `"-0.9"`, and on every 2-byte input agrees with the spec's
rule (16-bit big-endian value, minus `0xFFFF` when the high bit of the first
byte is set, divided by 10, one decimal place). -/
theorem short_scaled_signed_correct :
    short_scaled_signed_string 0x00 0x0A = "1.0" ∧
    short_scaled_signed_string 0xFF 0xF6 = "-0.9" ∧
    ∀ b1 < 256, ∀ b2 < 256,
      short_scaled_signed_string b1 b2 = shortScaledSignedSpec b1 b2 := by
  refine ⟨by decide, by decide, ?_⟩
  intro b1 hb1 b2 _
  simp only [short_scaled_signed_string, short_signed_val, shortScaledSignedSpec]
  by_cases hc : 128 ≤ b1
  · rw [if_pos ((and128_iff b1 hb1).mpr hc), if_pos hc]
  · rw [if_neg (fun h => hc ((and128_iff b1 hb1).mp h)), if_neg hc]

/-- Witness for C5 at the concrete input `0xFF 0xF6`. -/
theorem short_scaled_signed_correct_witness :
    (255 : Nat) < 256 ∧ (246 : Nat) < 256 ∧
    short_scaled_signed_string 255 246 = shortScaledSignedSpec 255 246 :=
  ⟨by decide, by decide, short_scaled_signed_correct.2.2 255 (by decide) 246 (by decide)⟩

/-- Claim C2 (code bug): `prepare_command_buffer` rejects a 252-byte payload
as required, but it also rejects a 251-byte payload: the guard
`(length > 0) && (payload != NULL)` is inverted relative to its own error
message ("payload pointer is null"), so every non-NULL payload of positive
length returns `-1`. -/
theorem prepare_command_buffer_null_guard_bug :
    prepare_command_buffer 0x27 (some (List.replicate 252 0)) 252 = none ∧
    prepare_command_buffer 0x27 (some (List.replicate 251 0)) 251 = none := by
  constructor <;> rfl

/-- Counterexample to claim C4 as stated: with bit 0 of byte 0 set (input
byte `0x01`), the bitmask-16 decoder's 128-character output has `'1'` at
index 7 (the low bit of the FIRST byte group), and its LAST character
(index 127) is `'0'`, not `'1'` as the claim asserts. -/
theorem bitmask_last_char_counterexample :
    (1 : Nat) &&& 1 ≠ 0 ∧
    (tag_payload TAG_TYPE_16_BYTES_BITMASK "all_sensor_low_battery"
      (0x4C :: 1 :: List.replicate 15 0)).2.data.length = 128 ∧
    (tag_payload TAG_TYPE_16_BYTES_BITMASK "all_sensor_low_battery"
      (0x4C :: 1 :: List.replicate 15 0)).2.data.getD 127 ' ' = '0' := by
  refine ⟨by decide, by decide, by decide⟩

/-- Claim C4 (amended): the bitmask-16 decoder maps 16 zero bytes to a
128-character string of `'0'`; an input whose byte 0 has bit 0 set yields
`'1'` at character index 7 — the last character of the first byte's group,
not the last character of the whole string. -/
theorem bitmask_decode_amended :
    (tag_payload TAG_TYPE_16_BYTES_BITMASK "all_sensor_low_battery"
      (0x4C :: List.replicate 16 0)).2 = String.mk (List.replicate 128 '0') ∧
    ∀ (topic : String) (t b0 : Nat) (rest : List Nat), b0 &&& 1 ≠ 0 →
      (tag_payload TAG_TYPE_16_BYTES_BITMASK topic (t :: b0 :: rest)).2.data.getD 7 ' '
        = '1' := by
  constructor
  · decide
  · intro topic t b0 rest h
    simp only [tag_payload]
    rw [List.getD_eq_getElem ((List.range 128).map _) ' ' (by simp)]
    simp only [List.getElem_map, List.getElem_range]
    norm_num
    intro hm
    rw [Nat.and_one_is_mod] at h
    exact absurd hm h

/-- Witness for the amended C4 theorem at byte 0 = `0x01`. -/
theorem bitmask_decode_amended_witness :
    (1 : Nat) &&& 1 ≠ 0 ∧
    (tag_payload TAG_TYPE_16_BYTES_BITMASK "all_sensor_low_battery"
      (0x4C :: 1 :: List.replicate 15 0)).2.data.getD 7 ' ' = '1' :=
  ⟨by decide, bitmask_decode_amended.2 "all_sensor_low_battery" 0x4C 1
    (List.replicate 15 0) (by decide)⟩

/-- A NUL-free character list survives `takeWhile (· ≠ NUL)`. -/
theorem takeWhile_of_nul_not_mem (s : List Char) (h : nulChar ∉ s) :
    s.takeWhile (fun c => c ≠ nulChar) = s := by
  induction s with
  | nil => rfl
  | cons c cs ih =>
    have hc : c ≠ nulChar := fun he => h (he ▸ List.mem_cons_self c cs)
    have h2 : nulChar ∉ cs := fun hm => h (List.mem_cons_of_mem c hm)
    simp [List.takeWhile_cons, hc, ih h2]
    intro x hx hxn
    exact h2 (hxn ▸ hx)

/-- Reading back a NUL-free prefix padded with NULs recovers the prefix. -/
theorem cString_append_nuls (s : List Char) (k : Nat) (h : nulChar ∉ s) :
    cString (s ++ List.replicate k nulChar) = s := by
  induction s with
  | nil =>
    cases k with
    | zero => rfl
    | succ m => simp [cString, List.replicate_succ, List.takeWhile_cons]
  | cons c cs ih =>
    have hc : c ≠ nulChar := fun he => h (he ▸ List.mem_cons_self c cs)
    have h2 : nulChar ∉ cs := fun hm => h (List.mem_cons_of_mem c hm)
    have h3 := ih h2
    simp only [cString, ne_eq, decide_not] at h3 ⊢
    rw [List.cons_append, List.takeWhile_cons]
    simp [hc, h3]

/-- Claim C10: the observation cache stores at most the first 32 characters
(`MQTT_MESSAGE_MAXLEN`) of the published value.  (1) A NUL-free published
payload shorter than 32 characters is cached in full (reading the field as a
C string gives back the payload).  (2) Whenever `process_tag` caches, the
stored field is exactly `strncpy32` of the published payload.  (3) The
128-character bitmask-16 payload is cached as its bare 32-character prefix,
which differs from the published value and contains no NUL terminator. -/
theorem cache_truncation :
    (∀ s : List Char, s.length < 32 → nulChar ∉ s → cString (strncpy32 s) = s) ∧
    (∀ (buf : List Nat) (now : Int) (cache : List Obs) (ti : Nat),
      tag_index (buf.getD 0 0) = some ti →
      (tagData.getD ti dummyTagSpec).type ≠ TAG_TYPE_PM25_AQI →
      (tag_payload (tagData.getD ti dummyTagSpec).type
        (tagData.getD ti dummyTagSpec).topic buf).2 ≠ "" →
      (process_tag buf now cache).2.2 =
        cache.set ti ⟨strncpy32 (tag_payload (tagData.getD ti dummyTagSpec).type
          (tagData.getD ti dummyTagSpec).topic buf).2.data, now⟩) ∧
    (∀ data : List Nat,
      ((tag_payload TAG_TYPE_16_BYTES_BITMASK "all_sensor_low_battery"
        (0x4C :: data)).2.data.length = 128 ∧
       strncpy32 (tag_payload TAG_TYPE_16_BYTES_BITMASK "all_sensor_low_battery"
        (0x4C :: data)).2.data =
         (tag_payload TAG_TYPE_16_BYTES_BITMASK "all_sensor_low_battery"
          (0x4C :: data)).2.data.take 32 ∧
       (tag_payload TAG_TYPE_16_BYTES_BITMASK "all_sensor_low_battery"
        (0x4C :: data)).2.data.take 32 ≠
         (tag_payload TAG_TYPE_16_BYTES_BITMASK "all_sensor_low_battery"
          (0x4C :: data)).2.data ∧
       nulChar ∉ strncpy32 (tag_payload TAG_TYPE_16_BYTES_BITMASK
        "all_sensor_low_battery" (0x4C :: data)).2.data)) := by
  refine ⟨?_, ?_, ?_⟩
  · intro s hlen hnul
    simp only [strncpy32]
    rw [takeWhile_of_nul_not_mem s hnul, List.take_of_length_le (Nat.le_of_lt hlen)]
    exact cString_append_nuls s _ hnul
  · intro buf now cache ti hidx htype hpay
    simp only [process_tag, hidx]
    rw [if_neg htype, if_pos hpay]
  · intro data
    set bs := (tag_payload TAG_TYPE_16_BYTES_BITMASK "all_sensor_low_battery"
      (0x4C :: data)).2.data with hbs
    have hchars : ∀ c ∈ bs, c = '1' ∨ c = '0' := by
      intro c hc
      rw [hbs] at hc
      simp only [tag_payload, String.data] at hc
      rcases List.mem_map.mp hc with ⟨p, _, hp⟩
      rw [← hp]
      by_cases hbit : (0x4C :: data).getD (1 + p / 8) 0 &&& (1 <<< (7 - p % 8)) ≠ 0
      · left; rw [if_pos hbit]
      · right; rw [if_neg hbit]
    have hnul : nulChar ∉ bs := by
      intro hmem
      rcases hchars nulChar hmem with h | h <;> exact absurd h (by decide)
    have hlen : bs.length = 128 := by
      rw [hbs]; simp [tag_payload]
    have htrunc : strncpy32 bs = bs.take 32 := by
      simp only [strncpy32]
      rw [takeWhile_of_nul_not_mem bs hnul, hlen]
      simp
    refine ⟨hlen, htrunc, ?_, ?_⟩
    · intro he
      have := congrArg List.length he
      rw [hlen, List.length_take, hlen] at this
      simp at this
    · rw [htrunc]
      exact fun hmem => hnul (List.mem_of_mem_take hmem)

/-- Witness for C10: a short payload (`"55"`), a concrete `process_tag`
cache-update instance, and the bitmask payload on concrete data. -/
theorem cache_truncation_witness :
    (cString (strncpy32 "55".data) = "55".data) ∧
    ((process_tag [0x06, 55] 100 initialCache).2.2 =
      initialCache.set 5 ⟨strncpy32 (tag_payload (tagData.getD 5 dummyTagSpec).type
        (tagData.getD 5 dummyTagSpec).topic [0x06, 55]).2.data, 100⟩) ∧
    (tag_payload TAG_TYPE_16_BYTES_BITMASK "all_sensor_low_battery"
      (0x4C :: List.replicate 16 0)).2.data.take 32 ≠
      (tag_payload TAG_TYPE_16_BYTES_BITMASK "all_sensor_low_battery"
        (0x4C :: List.replicate 16 0)).2.data :=
  ⟨cache_truncation.1 "55".data (by decide) (by decide),
   cache_truncation.2.1 [0x06, 55] 100 initialCache 5 (by decide) (by decide) (by decide),
   (cache_truncation.2.2 (List.replicate 16 0)).2.2.1⟩

/-- Claim C7: `publish_json` includes the observation of registry index `ti`
exactly when it has a value (first cached character non-NUL) and
`now - lastUpdate ≤ 60`; in particular every observation older than the
60-unit staleness threshold is excluded, and when nothing qualifies the
function signals "no data" (`none`) instead of emitting an empty JSON
object. -/
theorem publish_json_staleness :
    ∀ (now : Int) (cache : List Obs) (ti : Nat), ti < tag_count →
      ((ti ∈ publish_json_idx now cache) ↔
        ((cache.getD ti emptyObs).lastMessage.getD 0 nulChar ≠ nulChar ∧
         now - (cache.getD ti emptyObs).lastMessageTimestamp ≤ MESSAGE_EXPIRATION_SECONDS)) ∧
      (MESSAGE_EXPIRATION_SECONDS < now - (cache.getD ti emptyObs).lastMessageTimestamp →
        ti ∉ publish_json_idx now cache) ∧
      (publish_json now cache = none ↔ publish_json_idx now cache = []) := by
  intro now cache ti hti
  have hmem : (ti ∈ publish_json_idx now cache) ↔
      ((cache.getD ti emptyObs).lastMessage.getD 0 nulChar ≠ nulChar ∧
       now - (cache.getD ti emptyObs).lastMessageTimestamp ≤ MESSAGE_EXPIRATION_SECONDS) := by
    unfold publish_json_idx
    rw [List.mem_filter]
    simp only [List.mem_reverse, List.mem_range, include_entry, Bool.and_eq_true,
      decide_eq_true_eq]
    constructor
    · rintro ⟨-, h1, h2⟩
      exact ⟨by simpa using h1, h2⟩
    · rintro ⟨h1, h2⟩
      exact ⟨hti, by simpa using h1, h2⟩
  refine ⟨hmem, ?_, ?_⟩
  · intro hstale hmem2
    exact absurd ((hmem.mp hmem2).2) (by omega)
  · unfold publish_json
    constructor
    · intro h
      by_cases he : (publish_json_idx now cache).isEmpty
      · exact List.isEmpty_iff.mp he
      · rw [if_neg (by simpa using he)] at h
        exact absurd h (by simp)
    · intro h
      rw [if_pos (by simp [h])]

/-- Witness for C7 at `ti = 0` on the initial (empty) cache. -/
theorem publish_json_staleness_witness :
    (0 < tag_count) ∧
    ((0 ∈ publish_json_idx 100 initialCache) ↔
      ((initialCache.getD 0 emptyObs).lastMessage.getD 0 nulChar ≠ nulChar ∧
       100 - (initialCache.getD 0 emptyObs).lastMessageTimestamp ≤
         MESSAGE_EXPIRATION_SECONDS)) ∧
    (publish_json 100 initialCache = none ↔ publish_json_idx 100 initialCache = []) :=
  ⟨by decide,
   (publish_json_staleness 100 initialCache 0 (by decide)).1,
   (publish_json_staleness 100 initialCache 0 (by decide)).2.2⟩

/-- Printing `fmt_tenths` always emits at least the decimal point: never empty. -/
theorem fmt_tenths_ne_empty (n : Int) : fmt_tenths n ≠ "" := by
  intro h
  have hl := congrArg String.length h
  simp only [fmt_tenths, String.length_append] at hl
  have h1 : String.length "." = 1 := rfl
  have h2 : String.length "" = 0 := rfl
  omega

/-- The short-scaled-signed payload string is never empty (so `process_tag`
always publishes and caches it). -/
theorem short_scaled_signed_string_ne_empty (b1 b2 : Nat) :
    short_scaled_signed_string b1 b2 ≠ "" :=
  fmt_tenths_ne_empty _

/-- Registry lookup of a temp-and-battery entry's own tag finds that entry. -/
theorem tempbatt_tag_index : ∀ ti, ti < tagData.length →
    (tagData.getD ti dummyTagSpec).type = TAG_TYPE_3_BYTES_TEMP_AND_BATT →
    tag_index (tagData.getD ti dummyTagSpec).tag = some ti := by decide

/-- For every temp-and-battery registry entry, the derived battery channel
built by the code (`"battery"` + `strrchr(topic, '/')`) equals `"battery/"`
followed by the topic's final path segment. -/
theorem tempbatt_topic : ∀ ti, ti < tagData.length →
    (tagData.getD ti dummyTagSpec).type = TAG_TYPE_3_BYTES_TEMP_AND_BATT →
    "battery" ++ lastSlashSuffixStr (tagData.getD ti dummyTagSpec).topic =
      "battery/" ++ lastSegment (tagData.getD ti dummyTagSpec).topic := by decide

/-- Claim C8: for every registry entry of variant temp-and-battery, decoding
its 3 data bytes yields exactly two publications: the battery value
(byte 2 of the data, times 0.02) on `"battery/"` + the topic's final path
segment, and the temperature (data bytes 0–1, short-scaled-signed) on the
tag's own channel; the cursor advances by 4 and only the temperature is
cached. -/
theorem temp_and_battery_two_values :
    ∀ ti, ti < tagData.length →
      (tagData.getD ti dummyTagSpec).type = TAG_TYPE_3_BYTES_TEMP_AND_BATT →
      ∀ (b1 b2 b3 : Nat) (now : Int) (cache : List Obs),
        process_tag ((tagData.getD ti dummyTagSpec).tag :: [b1, b2, b3]) now cache =
          (4,
           [("battery/" ++ lastSegment (tagData.getD ti dummyTagSpec).topic,
             battery_string b3),
            ((tagData.getD ti dummyTagSpec).topic, short_scaled_signed_string b1 b2)],
           cache.set ti ⟨strncpy32 (short_scaled_signed_string b1 b2).data, now⟩) := by
  intro ti hti htype b1 b2 b3 now cache
  have hidx := tempbatt_tag_index ti hti htype
  have htopic := tempbatt_topic ti hti htype
  simp only [process_tag, List.getD_cons_zero, hidx]
  rw [if_neg (by rw [htype]; exact fun h => nomatch h)]
  rw [htype]
  simp only [tag_payload, tagTypeDataLength, List.getD_cons_succ, List.getD_cons_zero]
  rw [if_pos (short_scaled_signed_string_ne_empty b1 b2)]
  rw [htopic]
  norm_num

/-- Witness for C8 at registry index 89 (`ITEM_TF_USR1`, `temperature/t1`)
with data bytes `0x00 0x0A` and battery byte 50. -/
theorem temp_and_battery_two_values_witness :
    (89 < tagData.length ∧
     (tagData.getD 89 dummyTagSpec).type = TAG_TYPE_3_BYTES_TEMP_AND_BATT) ∧
    process_tag ((tagData.getD 89 dummyTagSpec).tag :: [0, 10, 50]) 7 initialCache =
      (4,
       [("battery/" ++ lastSegment (tagData.getD 89 dummyTagSpec).topic,
         battery_string 50),
        ((tagData.getD 89 dummyTagSpec).topic, short_scaled_signed_string 0 10)],
       initialCache.set 89 ⟨strncpy32 (short_scaled_signed_string 0 10).data, 7⟩) :=
  ⟨⟨by decide, by decide⟩,
   temp_and_battery_two_values 89 (by decide) (by decide) 0 10 50 7 initialCache⟩

/-- Reading with `List.getD` after `set` at a different index. -/
theorem getD_set_ne (b : List Nat) (i j v : Nat) (h : i ≠ j) :
    (b.set i v).getD j 0 = b.getD j 0 := by
  rw [List.getD_eq_getElem?_getD, List.getD_eq_getElem?_getD, List.getElem?_set_ne h]

/-- Reading with `List.getD` after `set` at the same (in-range) index. -/
theorem getD_set_self (b : List Nat) (i v : Nat) (h : i < b.length) :
    (b.set i v).getD i 0 = v := by
  rw [List.getD_eq_getElem?_getD, List.getElem?_set_eq_of_lt v h]; rfl

/-- One unfolding step of `sumBytes`. -/
theorem sumBytes_succ (b : List Nat) (s n : Nat) :
    sumBytes b s (n + 1) = b.getD s 0 + sumBytes b (s + 1) n := rfl

/-- Summing entirely past the end of the buffer gives 0 (zero fill). -/
theorem sumBytes_eq_zero_of_le (b : List Nat) : ∀ n s, b.length ≤ s → sumBytes b s n = 0 := by
  intro n
  induction n with
  | zero => intro s _; rfl
  | succ m ih =>
    intro s h
    rw [sumBytes_succ, List.getD_eq_default b 0 h, ih (s + 1) (by omega)]

/-- Setting a byte outside the summed window leaves the sum unchanged. -/
theorem sumBytes_set_out (b : List Nat) (i v : Nat) : ∀ n s, i < s ∨ s + n ≤ i →
    sumBytes (b.set i v) s n = sumBytes b s n := by
  intro n
  induction n with
  | zero => intro s _; rfl
  | succ m ih =>
    intro s h
    rw [sumBytes_succ, sumBytes_succ, getD_set_ne b i s v (by omega), ih (s + 1) (by omega)]

/-- Setting a byte inside the summed window replaces its contribution. -/
theorem sumBytes_set_in (b : List Nat) (i v : Nat) : ∀ n s, s ≤ i → i < s + n →
    i < b.length →
    sumBytes (b.set i v) s n + b.getD i 0 = sumBytes b s n + v := by
  intro n
  induction n with
  | zero => intro s h1 h2 _; omega
  | succ m ih =>
    intro s h1 h2 h3
    rw [sumBytes_succ, sumBytes_succ]
    by_cases he : i = s
    · subst he
      rw [getD_set_self b i v h3, sumBytes_set_out b i v m (i + 1) (Or.inl (by omega))]
      omega
    · rw [getD_set_ne b i s v he]
      have := ih (s + 1) (by omega) (by omega) h3
      omega

/-- Counterexample to claim C1 as stated: for command `0x27`
(`CMD_GW1000_LIVEDATA`) and the empty payload, `prepare_command_buffer`
succeeds, yet `check_receive_buffer` rejects its own output with
`INVALID_CHECKSUM` instead of accepting it: the builder writes a one-byte
size at offset 3 while the validator reads a 16-bit size from offsets 3–4. -/
theorem roundtrip_counterexample :
    (prepare_command_buffer 0x27 none 0).map check_receive_buffer =
      some INVALID_CHECKSUM ∧ INVALID_CHECKSUM ≠ RECEIVE_BUFFER_OK := by
  constructor <;> decide

/-- Claim C1 (amended): the round trip fails.  (1) For every non-NULL payload
of positive length below the size bound, `prepare_command_buffer` returns no
buffer at all (its NULL-pointer guard is inverted).  (2) For the empty
(NULL) payload it produces `FF FF cmd 3 k` with `k = (cmd+3) % 256`, and
`check_receive_buffer`, reading a 16-bit length `3*256 + k` from offsets
3–4, rejects that frame with `INVALID_CHECKSUM` for every command with
`(cmd + 3) % 128 ≠ 0` (the remaining commands are accepted only by the
accident that the out-of-range checksum position reads as zero fill). -/
theorem roundtrip_amended :
    (∀ (cmd l : Nat) (p : List Nat), 0 < l →
      prepare_command_buffer cmd (some p) l = none) ∧
    (∀ cmd < 256, (cmd + 3) % 128 ≠ 0 →
      (prepare_command_buffer cmd none 0).map check_receive_buffer =
        some INVALID_CHECKSUM) := by
  constructor
  · intro cmd l p hl
    unfold prepare_command_buffer
    by_cases hbig : l ≥ 0xFF - 3
    · rw [if_pos hbig]
    · rw [if_neg hbig, if_pos ⟨hl, by simp⟩]
  · intro cmd hcmd h128
    have hprep : prepare_command_buffer cmd none 0 =
        some [0xFF, 0xFF, cmd, 3, (cmd + 3) % 256] := by
      unfold prepare_command_buffer
      rw [if_neg (by omega), if_neg (by simp)]
      simp [sumBytes]
    rw [hprep, Option.map_some']
    refine congrArg some ?_
    unfold check_receive_buffer
    rw [if_neg (by simp)]
    simp only [List.getD_cons_succ, List.getD_cons_zero]
    set k := (cmd + 3) % 256 with hk
    have hsum : sumBytes [0xFF, 0xFF, cmd, 3, k] 2 (3 * 256 + k - 1) =
        cmd + 3 + k := by
      rw [show 3 * 256 + k - 1 = (764 + k) + 1 + 1 + 1 from by omega]
      rw [sumBytes_succ, sumBytes_succ, sumBytes_succ]
      rw [sumBytes_eq_zero_of_le _ (764 + k) 5 (by simp)]
      simp [List.getD_cons_succ, List.getD_cons_zero]
      omega
    have hdef : [255, cmd, 3, k].getD (3 * 256 + k) 0 = 0 :=
      List.getD_eq_default _ 0 (by simp only [List.length_cons, List.length_nil]; omega)
    simp only [hsum, hdef]
    rw [if_pos (by omega)]

/-- Witness for the amended C1 theorem: a 1-byte payload is refused, and the
empty-payload frame for command `0x27` fails validation. -/
theorem roundtrip_amended_witness :
    (0 < 1 ∧ prepare_command_buffer 0x27 (some [5]) 1 = none) ∧
    ((0x27 : Nat) < 256 ∧ (0x27 + 3) % 128 ≠ 0 ∧
     (prepare_command_buffer 0x27 none 0).map check_receive_buffer =
       some INVALID_CHECKSUM) :=
  ⟨⟨by decide, roundtrip_amended.1 0x27 1 [5] (by decide)⟩,
   ⟨by decide, by decide, roundtrip_amended.2 0x27 (by decide) (by decide)⟩⟩

/-- Counterexample to claim C3 as stated: the buffer
`FF FF 00 00 05 00 05 00 00 00 0E` is accepted, and changing the single size
byte at offset 4 (which lies inside the frame, whose extent is `length + 1 =
6`) from 5 to 251... here to 9 yields a buffer that is accepted again: the
new declared length denotes a second well-formed frame inside the buffer, so
the corruption is silently accepted. -/
theorem single_byte_corruption_counterexample :
    check_receive_buffer [255, 255, 0, 0, 5, 0, 5, 0, 0, 0, 14] = RECEIVE_BUFFER_OK ∧
    check_receive_buffer ([255, 255, 0, 0, 5, 0, 5, 0, 0, 0, 14].set 4 9) =
      RECEIVE_BUFFER_OK ∧
    [255, 255, 0, 0, 5, 0, 5, 0, 0, 0, 14].getD 4 0 ≠ 9 ∧
    4 ≤ [255, 255, 0, 0, 5, 0, 5, 0, 0, 0, 14].getD 3 0 * 256
      + [255, 255, 0, 0, 5, 0, 5, 0, 0, 0, 14].getD 4 0 + 1 := by
  refine ⟨by decide, by decide, by decide, by decide⟩

/-- Claim C3 (amended): for an accepted frame held in a buffer of bytes,
changing any single byte of the frame at an offset OTHER than the two size
bytes (offsets 3 and 4) is always detected: offsets 0–1 yield
`INVALID_HEADER`, and every other in-frame offset yields `INVALID_CHECKSUM`.
(Corrupting a size byte can be silently accepted — see the counterexample.) -/
theorem single_byte_corruption_amended :
    ∀ (b : List Nat), (∀ x ∈ b, x < 256) →
      check_receive_buffer b = RECEIVE_BUFFER_OK →
      ∀ (i v : Nat), v < 256 → v ≠ b.getD i 0 → i ≠ 3 → i ≠ 4 →
        i ≤ b.getD 3 0 * 256 + b.getD 4 0 + 1 →
        b.getD 3 0 * 256 + b.getD 4 0 + 1 < b.length →
        (i < 2 → check_receive_buffer (b.set i v) = INVALID_HEADER) ∧
        (2 ≤ i → check_receive_buffer (b.set i v) = INVALID_CHECKSUM) := by
  intro b hall h0 i v hv256 hv hi3 hi4 hile hlen
  unfold check_receive_buffer at h0
  set L := b.getD 3 0 * 256 + b.getD 4 0 with hL
  by_cases hhdr : b.getD 0 0 ≠ 255 ∨ b.getD 1 0 ≠ 255
  · rw [if_pos hhdr] at h0
    exact absurd h0 (by decide)
  · rw [if_neg hhdr] at h0
    push_neg at hhdr
    obtain ⟨hh0, hh1⟩ := hhdr
    by_cases hcs' : sumBytes b 2 (L - 1) % 256 ≠ b.getD (L + 1) 0
    · rw [if_pos hcs'] at h0
      exact absurd h0 (by decide)
    · push_neg at hcs'
      have hL1 : 1 ≤ L := by
        by_contra hc
        have hz : L = 0 := by omega
        rw [hz] at hcs'
        simp only [sumBytes, Nat.zero_mod] at hcs'
        rw [← hcs'] at hh1
        exact absurd hh1 (by decide)
      constructor
      · intro hi2
        unfold check_receive_buffer
        by_cases hi0 : i = 0
        · subst hi0
          rw [if_pos (Or.inl (by
            rw [getD_set_self b 0 v (by omega)]
            rw [hh0] at hv
            exact hv))]
        · have hi1 : i = 1 := by omega
          subst hi1
          rw [if_pos (Or.inr (by
            rw [getD_set_self b 1 v (by omega)]
            rw [hh1] at hv
            exact hv))]
      · intro hi2
        unfold check_receive_buffer
        rw [if_neg (by
          rw [getD_set_ne b i 0 v (by omega), getD_set_ne b i 1 v (by omega), hh0, hh1]
          simp)]
        simp only [getD_set_ne b i 3 v hi3, getD_set_ne b i 4 v hi4, ← hL]
        by_cases hitop : i = L + 1
        · subst hitop
          rw [if_pos (by
            rw [sumBytes_set_out b (L + 1) v (L - 1) 2 (Or.inr (by omega))]
            rw [getD_set_self b (L + 1) v (by omega)]
            rw [hcs']
            exact Ne.symm hv)]
        · have hiL : i ≤ L := by omega
          have hbi : b.getD i 0 < 256 := by
            rw [List.getD_eq_getElem b 0 (by omega)]
            exact hall _ (List.getElem_mem _)
          have hin := sumBytes_set_in b i v (L - 1) 2 (by omega) (by omega) (by omega)
          rw [if_pos (by
            rw [getD_set_ne b i (L + 1) v (by omega), ← hcs']
            intro heq
            omega)]

/-- Witness for the amended C3 theorem: corrupting the checksum byte
(offset 6) of an accepted frame is detected as `INVALID_CHECKSUM`. -/
theorem single_byte_corruption_amended_witness :
    check_receive_buffer (([255, 255, 0, 0, 5, 0, 5, 0] : List Nat).set 6 9) =
      INVALID_CHECKSUM :=
  ((single_byte_corruption_amended [255, 255, 0, 0, 5, 0, 5, 0] (by decide) (by decide)
    6 9 (by decide) (by decide) (by decide) (by decide) (by decide) (by decide)).2
    (by decide))

/-- Claim C9: the tag-stream loop of `parse_and_publish` terminates on every
input.  Formally: every iteration either stops (`process_tag` non-positive)
or advances `readBytes` by at least 1, so `length - readBytes` iterations of
fuel always suffice — any fuel bound at least that large yields the same
result.  (`parse_and_publish` passes `length` as fuel, which is enough since
`readBytes` starts at 3.) -/
theorem parse_loop_terminates :
    ∀ (fuel : Nat) (frame : List Nat) (pos readBytes length : Nat) (now : Int)
      (cache : List Obs), length - readBytes ≤ fuel →
      parse_loop fuel frame pos readBytes length now cache =
        parse_loop (length - readBytes) frame pos readBytes length now cache := by
  intro fuel
  induction fuel using Nat.strong_induction_on with
  | _ fuel ih =>
    intro frame pos readBytes length now cache hf
    cases fuel with
    | zero =>
      have hz : length - readBytes = 0 := by omega
      rw [hz]
    | succ f =>
      by_cases hdone : length ≤ readBytes
      · have hz : length - readBytes = 0 := by omega
        rw [hz]
        simp only [parse_loop]
        rw [if_pos hdone]
      · have hpos : length - readBytes = (length - readBytes - 1) + 1 := by omega
        rw [hpos]
        simp only [parse_loop]
        rw [if_neg hdone, if_neg hdone]
        by_cases hstep : 0 < (process_tag (frame.drop pos) now cache).1
        · rw [if_pos hstep, if_pos hstep]
          have ht : 1 ≤ (process_tag (frame.drop pos) now cache).1.toNat := by omega
          rw [ih f (by omega) frame
            (pos + (process_tag (frame.drop pos) now cache).1.toNat)
            (readBytes + (process_tag (frame.drop pos) now cache).1.toNat)
            length now (process_tag (frame.drop pos) now cache).2.2 (by omega)]
          rw [ih (length - readBytes - 1) (by omega) frame
            (pos + (process_tag (frame.drop pos) now cache).1.toNat)
            (readBytes + (process_tag (frame.drop pos) now cache).1.toNat)
            length now (process_tag (frame.drop pos) now cache).2.2 (by omega)]
        · rw [if_neg hstep, if_neg hstep]

/-- Witness for C9: surplus fuel (10) agrees with exact fuel on a concrete
frame. -/
theorem parse_loop_terminates_witness :
    (7 - 3 ≤ 10) ∧
    parse_loop 10 [255, 255, 39, 0, 7, 6, 55, 0, 7, 8] 5 3 7 100 initialCache =
      parse_loop (7 - 3) [255, 255, 39, 0, 7, 6, 55, 0, 7, 8] 5 3 7 100 initialCache :=
  ⟨by decide, parse_loop_terminates 10 [255, 255, 39, 0, 7, 6, 55, 0, 7, 8]
    5 3 7 100 initialCache (by decide)⟩

/-- Reads at indices `1..data.length` into `tag :: (data ++ suffix)` stay in
`data`. -/
theorem getD_cons_append (t : Nat) (data suffix : List Nat) (j : Nat) (h1 : 1 ≤ j)
    (h2 : j ≤ data.length) :
    (t :: (data ++ suffix)).getD j 0 = (t :: data).getD j 0 := by
  cases j with
  | zero => omega
  | succ i =>
    rw [List.getD_cons_succ, List.getD_cons_succ, List.getD_append data suffix 0 i (by omega)]

/-- The per-variant decoder only reads the variant's width of data bytes:
appending a suffix after the data does not change its output. -/
theorem tag_payload_append (ty : TAG_PROCESSING_TYPE) (topic : String) (t : Nat)
    (data suffix : List Nat) (h : tagTypeDataLength ty ≤ data.length) :
    tag_payload ty topic (t :: (data ++ suffix)) = tag_payload ty topic (t :: data) := by
  cases ty <;> simp only [tagTypeDataLength] at h <;> simp only [tag_payload]
  case TAG_TYPE_BYTE_LEAVE_ALONE =>
    rw [getD_cons_append t data suffix 1 (by omega) (by omega)]
  case TAG_TYPE_SHORT_LEAVE_ALONE =>
    rw [getD_cons_append t data suffix 1 (by omega) (by omega),
      getD_cons_append t data suffix 2 (by omega) (by omega)]
  case TAG_TYPE_3_BYTES_LEAVE_ALONE =>
    rw [getD_cons_append t data suffix 1 (by omega) (by omega),
      getD_cons_append t data suffix 2 (by omega) (by omega),
      getD_cons_append t data suffix 3 (by omega) (by omega)]
  case TAG_TYPE_INT_LEAVE_ALONE =>
    rw [getD_cons_append t data suffix 1 (by omega) (by omega),
      getD_cons_append t data suffix 2 (by omega) (by omega),
      getD_cons_append t data suffix 3 (by omega) (by omega),
      getD_cons_append t data suffix 4 (by omega) (by omega)]
  case TAG_TYPE_SHORT_DIVIDE_BY_10_UNSIGNED =>
    rw [getD_cons_append t data suffix 1 (by omega) (by omega),
      getD_cons_append t data suffix 2 (by omega) (by omega)]
  case TAG_TYPE_SHORT_DIVIDE_BY_10_SIGNED =>
    rw [getD_cons_append t data suffix 1 (by omega) (by omega),
      getD_cons_append t data suffix 2 (by omega) (by omega)]
  case TAG_TYPE_3_BYTES_TEMP_AND_BATT =>
    rw [getD_cons_append t data suffix 1 (by omega) (by omega),
      getD_cons_append t data suffix 2 (by omega) (by omega),
      getD_cons_append t data suffix 3 (by omega) (by omega)]
  case TAG_TYPE_16_BYTES_BITMASK =>
    have hmap : ∀ p ∈ List.range 128,
        (if (t :: (data ++ suffix)).getD (1 + p / 8) 0 &&& (1 <<< (7 - p % 8)) ≠ 0
          then '1' else '0') =
        (if (t :: data).getD (1 + p / 8) 0 &&& (1 <<< (7 - p % 8)) ≠ 0
          then '1' else '0') := by
      intro p hp
      rw [List.mem_range] at hp
      rw [getD_cons_append t data suffix (1 + p / 8) (by omega) (by omega)]
    rw [List.map_congr_left hmap]

/-- Running `process_tag` on a well-formed chunk ignores whatever follows the chunk. -/
theorem process_tag_append (c : Chunk) (h : chunk_ok c = true) (suffix : List Nat)
    (now : Int) (cache : List Obs) :
    process_tag (chunkBytes c ++ suffix) now cache = process_tag (chunkBytes c) now cache := by
  unfold chunk_ok at h
  cases hidx : tag_index c.tag with
  | none => rw [hidx] at h; simp at h
  | some ti =>
    rw [hidx] at h
    simp only [Bool.and_eq_true, decide_eq_true_eq, beq_iff_eq, ne_eq] at h
    obtain ⟨hty, hlen⟩ := h
    have hb : chunkBytes c ++ suffix = c.tag :: (c.data ++ suffix) := by
      simp [chunkBytes]
    rw [hb]
    simp only [process_tag, chunkBytes, List.getD_cons_zero, hidx]
    rw [tag_payload_append _ _ _ _ suffix (by omega)]

/-- On a well-formed chunk, `process_tag` returns exactly the chunk's byte
count (tag byte + data width), so the cursor advances past the chunk. -/
theorem process_tag_chunk_result (c : Chunk) (h : chunk_ok c = true) (now : Int)
    (cache : List Obs) :
    (process_tag (chunkBytes c) now cache).1 = ((chunkBytes c).length : Int) := by
  unfold chunk_ok at h
  cases hidx : tag_index c.tag with
  | none => rw [hidx] at h; simp at h
  | some ti =>
    rw [hidx] at h
    simp only [Bool.and_eq_true, decide_eq_true_eq, beq_iff_eq, ne_eq] at h
    obtain ⟨hty, hlen⟩ := h
    simp only [process_tag, chunkBytes, List.getD_cons_zero, hidx]
    rw [if_neg hty]
    by_cases hpay : (tag_payload (tagData.getD ti dummyTagSpec).type
        (tagData.getD ti dummyTagSpec).topic (c.tag :: c.data)).2 ≠ ""
    · rw [if_pos hpay]
      simp only [List.length_cons, ← hlen]
      push_cast
      ring
    · rw [if_neg hpay]
      simp only [List.length_cons, ← hlen]
      push_cast
      ring

/-- A chunk list flattens to at least one byte per chunk. -/
theorem length_le_chunksFlat (cs : List Chunk) : cs.length ≤ (chunksFlat cs).length := by
  induction cs with
  | nil => simp [chunksFlat]
  | cons c cs ih =>
    have h1 : chunksFlat (c :: cs) = chunkBytes c ++ chunksFlat cs := by simp [chunksFlat]
    rw [h1, List.length_append, List.length_cons]
    have h2 : 0 < (chunkBytes c).length := by simp [chunkBytes]
    omega

/-- Core induction for claim C6: when the stream at the cursor consists of
well-formed chunks followed by an unregistered tag, the loop processes
exactly the chunks (publications and cache updates as if each chunk were
decoded in isolation) and stops at the unknown tag, leaving `readBytes`
there. -/
theorem parse_loop_chunks :
    ∀ (chunks : List Chunk), (∀ ch ∈ chunks, chunk_ok ch = true) →
    ∀ (u : Nat), tag_index u = none →
    ∀ (rest frame : List Nat) (pos readBytes length fuel : Nat) (now : Int)
      (cache : List Obs),
      frame.drop pos = chunksFlat chunks ++ u :: rest →
      readBytes + (chunksFlat chunks).length < length →
      chunks.length < fuel →
      parse_loop fuel frame pos readBytes length now cache =
        ((run_chunks now chunks cache).1, (run_chunks now chunks cache).2,
          readBytes + (chunksFlat chunks).length) := by
  intro chunks
  induction chunks with
  | nil =>
    intro _ u hu rest frame pos readBytes length fuel now cache hdrop hlt hfuel
    cases fuel with
    | zero => omega
    | succ f =>
      simp only [chunksFlat, List.flatMap_nil, List.nil_append] at hdrop hlt
      simp only [parse_loop]
      rw [if_neg (by omega)]
      rw [hdrop]
      have hpt : process_tag (u :: rest) now cache = (-1, [], cache) := by
        simp only [process_tag, List.getD_cons_zero, hu]
      simp only [hpt]
      rw [if_neg (by norm_num)]
      simp [run_chunks, chunksFlat]
  | cons c cs ih =>
    intro hok u hu rest frame pos readBytes length fuel now cache hdrop hlt hfuel
    have hc : chunk_ok c = true := hok c (List.mem_cons_self c cs)
    have hcsok : ∀ x ∈ cs, chunk_ok x = true := fun x hx => hok x (List.mem_cons_of_mem c hx)
    have hflat : chunksFlat (c :: cs) = chunkBytes c ++ chunksFlat cs := by
      simp [chunksFlat]
    have hflatlen : (chunksFlat (c :: cs)).length =
        (chunkBytes c).length + (chunksFlat cs).length := by
      rw [hflat, List.length_append]
    cases fuel with
    | zero => omega
    | succ f =>
      simp only [parse_loop]
      rw [if_neg (by omega)]
      have hdrop2 : frame.drop pos = chunkBytes c ++ (chunksFlat cs ++ u :: rest) := by
        rw [hdrop, hflat, List.append_assoc]
      simp only [hdrop2]
      rw [process_tag_append c hc _ now cache]
      have hres := process_tag_chunk_result c hc now cache
      have hcl : 0 < (chunkBytes c).length := by simp [chunkBytes]
      rw [if_pos (by rw [hres]; exact_mod_cast hcl)]
      have htn : (process_tag (chunkBytes c) now cache).1.toNat = (chunkBytes c).length := by
        rw [hres]; exact Int.toNat_natCast _
      simp only [htn]
      have hdrop3 : frame.drop (pos + (chunkBytes c).length) = chunksFlat cs ++ u :: rest := by
        have h2 := congrArg (List.drop (chunkBytes c).length) hdrop2
        rw [List.drop_drop, List.drop_left] at h2
        exact h2
      have hfuel2 : cs.length < f := by
        simp only [List.length_cons] at hfuel
        omega
      rw [ih hcsok u hu rest frame (pos + (chunkBytes c).length)
        (readBytes + (chunkBytes c).length) length f now
        (process_tag (chunkBytes c) now cache).2.2 hdrop3 (by omega) hfuel2]
      simp only [run_chunks, hflatlen, Prod.mk.injEq]
      exact ⟨trivial, trivial, by omega⟩

/-- Claim C6: for a frame whose payload is a sequence of well-formed chunks
followed by a tag with no registry entry, `parse_and_publish` publishes and
caches exactly the values of the chunks before the unknown tag (each decoded
as if in isolation), and stops at the unknown tag: the final `readBytes`
points at it, so no byte after it is processed.  There is no fatal error —
the function returns normally with the partial results. -/
theorem unknown_tag_partial_decode :
    ∀ (chunks : List Chunk), (∀ ch ∈ chunks, chunk_ok ch = true) →
    ∀ (u : Nat), tag_index u = none →
    ∀ (cmd : Nat) (rest : List Nat) (now : Int) (cache : List Obs) (L : Nat)
      (frame : List Nat),
      L = 3 + ((chunksFlat chunks).length + 1 + rest.length) →
      L < 65536 →
      frame = [255, 255, cmd, L / 256, L % 256] ++ (chunksFlat chunks ++ u :: rest) →
      (parse_and_publish frame now cache).pubs = (run_chunks now chunks cache).1 ∧
      (parse_and_publish frame now cache).cache = (run_chunks now chunks cache).2 ∧
      (parse_and_publish frame now cache).finalReadBytes =
        3 + (chunksFlat chunks).length := by
  intro chunks hok u hu cmd rest now cache L frame hLdef hLsize hframe
  have hget3 : frame.getD 3 0 = L / 256 := by rw [hframe]; rfl
  have hget4 : frame.getD 4 0 = L % 256 := by rw [hframe]; rfl
  have hLfull : frame.getD 3 0 * 256 + frame.getD 4 0 = L := by
    rw [hget3, hget4]; omega
  have hdrop : frame.drop 5 = chunksFlat chunks ++ u :: rest := by
    rw [hframe]
    simp [List.drop_append_of_le_length]
  have hlt : 3 + (chunksFlat chunks).length < L := by omega
  have hfuel : chunks.length < L := by
    have := length_le_chunksFlat chunks
    omega
  simp only [parse_and_publish, hLfull]
  rw [parse_loop_chunks chunks hok u hu rest frame 5 3 L L now cache hdrop hlt hfuel]
  exact ⟨rfl, rfl, rfl⟩

/-- Witness for C6: one known chunk (`ITEM_INHUMI`, value 55), then unknown
tag `0x00`, then two trailing bytes; the loop publishes the humidity value,
caches it, and stops with `readBytes` at the unknown tag. -/
theorem unknown_tag_partial_decode_witness :
    (∀ ch ∈ [Chunk.mk 0x06 [55]], chunk_ok ch = true) ∧
    tag_index 0 = none ∧
    ((parse_and_publish [255, 255, 39, 0, 8, 6, 55, 0, 7, 8] 100 initialCache).pubs =
       (run_chunks 100 [Chunk.mk 0x06 [55]] initialCache).1 ∧
     (parse_and_publish [255, 255, 39, 0, 8, 6, 55, 0, 7, 8] 100 initialCache).cache =
       (run_chunks 100 [Chunk.mk 0x06 [55]] initialCache).2 ∧
     (parse_and_publish [255, 255, 39, 0, 8, 6, 55, 0, 7, 8] 100 initialCache).finalReadBytes
       = 3 + (chunksFlat [Chunk.mk 0x06 [55]]).length) :=
  ⟨by decide, by decide,
   unknown_tag_partial_decode [Chunk.mk 0x06 [55]] (by decide) 0 (by decide) 39 [7, 8]
     100 initialCache 8 [255, 255, 39, 0, 8, 6, 55, 0, 7, 8] (by decide) (by decide)
     (by decide)⟩
